import Mathlib

/-!
Verification of the invoice-generator core (`src/components/InvoicePage.tsx`).

The numeric state of the program (JavaScript numbers) is embedded as exact
rationals: every value the claims touch is produced by decimal parsing and
decimal arithmetic, which `ℚ` represents exactly.  `toFixed(2)` is embedded
as ECMAScript specifies it (sign split off, then round-to-nearest with ties
away from zero on the magnitude).  `parseFloat` and `Number.prototype.toString`
are embedded for decimal literals with optional exponent part; the exponential
*output* notation JavaScript switches to beyond 1e21 / below 1e-6 is outside
the range these claims exercise and is not modelled.
-/

/-- Digit list to its value, most significant first. -/
def digitsToNat (l : List Char) : Nat :=
  l.foldl (fun acc c => acc * 10 + (c.toNat - 48)) 0

/-- Leading-whitespace skipping of `parseFloat`. -/
def skipWs : List Char → List Char
  | [] => []
  | c :: rest => if c.isWhitespace then skipWs rest else c :: rest

/-- Optional sign at the head of a numeric literal: (isNegative, rest). -/
def parseSign : List Char → Bool × List Char
  | '-' :: r => (true, r)
  | '+' :: r => (false, r)
  | l => (false, l)

/-- A parsed JavaScript number in decimal scientific form:
value = (-1)^neg * mant * 10^exp10. -/
structure JSNum where
  neg : Bool
  mant : Nat
  exp10 : Int
deriving DecidableEq, Repr

/-- Rational value of a parsed number. -/
def JSNum.value (x : JSNum) : ℚ :=
  let scaled : ℚ :=
    if 0 ≤ x.exp10 then (x.mant : ℚ) * (10 : ℚ) ^ x.exp10.toNat
    else (x.mant : ℚ) / (10 : ℚ) ^ (-x.exp10).toNat
  if x.neg then -scaled else scaled

/-- Exponent part of a decimal literal (`e`/`E`, optional sign, digits);
0 when absent or malformed, matching `parseFloat`'s longest-valid-prefix rule. -/
def parseExpPart : List Char → Int
  | [] => 0
  | c :: rest =>
    if c = 'e' ∨ c = 'E' then
      let (eneg, r2) := parseSign rest
      let ds := r2.takeWhile Char.isDigit
      if ds = [] then 0
      else if eneg then -(digitsToNat ds : Int) else (digitsToNat ds : Int)
    else 0

/-- JavaScript `parseFloat`: longest decimal-literal prefix after optional
whitespace and sign; `none` models `NaN`.  The non-numeric literals
`Infinity`/`-Infinity` have no counterpart in an exact-value model and parse
as `none` here. -/
def jsParseFloat (s : String) : Option JSNum :=
  let l := skipWs s.data
  let (neg, l1) := parseSign l
  let ip := l1.takeWhile Char.isDigit
  let r1 := l1.dropWhile Char.isDigit
  let (fp, r2) :=
    match r1 with
    | '.' :: t => (t.takeWhile Char.isDigit, t.dropWhile Char.isDigit)
    | _ => ([], r1)
  if ip = [] ∧ fp = [] then none
  else some ⟨neg, digitsToNat (ip ++ fp), parseExpPart r2 - fp.length⟩

/-- Strip factors of 10 out of the mantissa into the exponent; the fuel
argument only bounds the loop (one division per unit, `m` itself is always
enough). -/
def stripZerosFuel : Nat → Nat → Int → Nat × Int
  | 0, m, e => (m, e)
  | fuel + 1, m, e =>
    if m ≠ 0 ∧ m % 10 = 0 then stripZerosFuel fuel (m / 10) (e + 1) else (m, e)

/-- Strip factors of 10 out of the mantissa into the exponent. -/
def stripZeros (m : Nat) (e : Int) : Nat × Int :=
  stripZerosFuel m m e

/-- JavaScript `Number.prototype.toString` on an exact decimal value
(positional notation: shortest digit string, no trailing fractional zeros). -/
def jsNumToString (x : JSNum) : String :=
  let p := stripZeros x.mant x.exp10
  let m := p.1
  let e := p.2
  if m = 0 then "0"
  else
    let sign := if x.neg then "-" else ""
    if 0 ≤ e then
      sign ++ Nat.repr m ++ String.mk (List.replicate e.toNat '0')
    else
      let d := (-e).toNat
      let dl := (Nat.repr m).data
      if d < dl.length then
        sign ++ String.mk (dl.take (dl.length - d)) ++ "." ++ String.mk (dl.drop (dl.length - d))
      else
        sign ++ "0." ++ String.mk (List.replicate (d - dl.length) '0') ++ String.mk dl

/-- `.replace('.', ',')` as applied to the numeric strings of this program,
which hold at most one dot. -/
def replaceDotComma (s : String) : String :=
  String.mk (s.data.map fun c => if c = '.' then ',' else c)

/-- `(n ? n : 0).toString()` for `n = parseFloat v`: `NaN` and `0` display as
"0", every other parse as its shortest decimal string, comma for dot.
The zero test of the JavaScript truthiness check is `mant = 0`, which holds
exactly when the parsed value is `0` (`JSNum.value_eq_zero_iff`). -/
def displayOfParse (v : String) : String :=
  replaceDotComma
    (match jsParseFloat v with
     | none => "0"
     | some x => if x.mant = 0 then "0" else jsNumToString x)

/-- The mantissa test used for JavaScript number truthiness agrees with the
rational value. -/
theorem JSNum.value_eq_zero_iff (x : JSNum) : x.value = 0 ↔ x.mant = 0 := by
  unfold JSNum.value
  have h10 : ((10 : ℚ)) ≠ 0 := by norm_num
  split_ifs with hneg hexp hexp <;>
    simp [neg_eq_zero, div_eq_zero_iff, pow_ne_zero, h10, Nat.cast_eq_zero]

/-- The integer of ECMAScript `toFixed(2)`: magnitude rounded to nearest
hundredth, ties away from zero, sign reattached. -/
def round2Int (x : ℚ) : Int :=
  if x < 0 then -⌊(-x) * 100 + 1 / 2⌋ else ⌊x * 100 + 1 / 2⌋

/-- The displayed 2-decimal value as a rational. -/
def round2 (x : ℚ) : ℚ := (round2Int x : ℚ) / 100

/-- ECMAScript `toFixed(2)` as a string (period separator, always two
fractional digits; a negative value keeps its sign even when it rounds to
magnitude zero, as the standard prescribes). -/
def toFixed2String (x : ℚ) : String :=
  let n := (round2Int x).natAbs
  let sign := if x < 0 then "-" else ""
  sign ++ Nat.repr (n / 100) ++ "." ++ (if n % 100 < 10 then "0" else "") ++ Nat.repr (n % 100)

/-!
Data model: the `ProductLine` and `Invoice` shapes of `src/data/types.ts`,
restricted to the fields the core logic reads.  `pageProductLines` is the
page-structured line-item store the interactive handlers mutate;
`productLines` is the flat legacy field the PDF export reads.
-/

/-- A line item: `{description, quantity, rate}`, quantity and rate held as
display strings. -/
structure ProductLine where
  description : String
  quantity : String
  rate : String
deriving DecidableEq, Repr

/-- The invoice fields the computational core reads. -/
structure Invoice where
  name : String
  companyName : String
  invoiceTitle : String
  taxLabel : String
  currency : String
  iban : String
  bic : String
  productLines : List ProductLine
  pageProductLines : List (List ProductLine)
deriving DecidableEq, Repr

/-- Which `ProductLine` field an edit targets. -/
inductive ProductLineField
  | description
  | quantity
  | rate
deriving DecidableEq, Repr

/-!
Decimal field handling (`handleProductLineChange`, lines 130-161).
-/

/-- The guard of `handleProductLineChange` for numeric fields:
`value[value.length-1] === '.' || (value[value.length-1] === '0' && value.includes('.'))`. -/
def preserveRaw (v : String) : Bool :=
  (v.data.getLast? == some '.') || ((v.data.getLast? == some '0') && v.data.contains '.')

/-- The stored string for a quantity/rate edit: the raw text when the guard
holds, else `(parseFloat(value) || 0).toString().replace('.', ',')`. -/
def normalizeNumeric (v : String) : String :=
  if preserveRaw v then v else displayOfParse v

/-- The stored string for an edit of field `f` with raw text `v`
(descriptions pass through verbatim). -/
def normalizedValue (f : ProductLineField) (v : String) : String :=
  match f with
  | .description => v
  | .quantity => normalizeNumeric v
  | .rate => normalizeNumeric v

/-- Write the (already normalized) value into the addressed field. -/
def setField (pl : ProductLine) (f : ProductLineField) (v : String) : ProductLine :=
  match f with
  | .description => { pl with description := v }
  | .quantity => { pl with quantity := v }
  | .rate => { pl with rate := v }

/-- `handleProductLineChange(index, name, value)` on the page selected by
`currentPage`.  When the selected page or the addressed item does not exist
the source never calls `setInvoice`, so the snapshot is returned unchanged. -/
def handleProductLineChange (inv : Invoice) (currentPage index : Nat)
    (f : ProductLineField) (v : String) : Invoice :=
  let pageIndex := currentPage - 1
  match inv.pageProductLines[pageIndex]? with
  | none => inv
  | some page =>
    match page[index]? with
    | none => inv
    | some pl =>
      { inv with
        pageProductLines :=
          inv.pageProductLines.set pageIndex (page.set index (setField pl f (normalizedValue f v))) }

/-- `handleRemove(i)`: filters index `i` out of the selected page; a missing
page means no `setInvoice` call, so the snapshot is unchanged. -/
def handleRemove (inv : Invoice) (currentPage i : Nat) : Invoice :=
  let pageIndex := currentPage - 1
  match inv.pageProductLines[pageIndex]? with
  | none => inv
  | some page =>
    { inv with pageProductLines := inv.pageProductLines.set pageIndex (page.eraseIdx i) }

/-!
Aggregation (`calculateAmount`, lines 186-192, and the subtotal effect,
lines 194-211) and the tax effect (lines 213-219).
-/

/-- The unrounded amount of one line:
`quantityNumber && rateNumber ? quantityNumber * rateNumber : 0`. -/
def rawAmount (quantity rate : String) : ℚ :=
  match jsParseFloat quantity, jsParseFloat rate with
  | some a, some b => if a.value ≠ 0 ∧ b.value ≠ 0 then a.value * b.value else 0
  | _, _ => 0

/-- `calculateAmount`: the amount string shown in the table,
`amount.toFixed(2)`. -/
def calculateAmount (quantity rate : String) : String :=
  toFixed2String (rawAmount quantity rate)

/-- The unrounded amount of a line item. -/
def lineRawAmount (pl : ProductLine) : ℚ :=
  rawAmount pl.quantity pl.rate

/-- The subtotal effect: amounts of every item of every page accumulated at
full precision. -/
def subTotalOf (pages : List (List ProductLine)) : ℚ :=
  (pages.map fun pageItems => (pageItems.map lineRawAmount).sum).sum

/-- The `/(\d+)%/` scan of the tax effect: the digit run of the first position
where a (maximal) digit run is immediately followed by `%`; `none` when the
regular expression does not match.  (Greedy `\d+` with backtracking can only
match at the start of such a run, so the leftmost-match rule reduces to this
character scan.) -/
def findRatePercent : List Char → Option Nat
  | [] => none
  | c :: rest =>
    if c.isDigit then
      match (c :: rest).dropWhile Char.isDigit with
      | '%' :: _ => some (digitsToNat ((c :: rest).takeWhile Char.isDigit))
      | _ => findRatePercent rest
    else findRatePercent rest

/-- `taxRate`: `match ? parseFloat(match[1]) : 0` — the matched digit run's
value, 0 when the label has no match. -/
def extractRatePercent (label : String) : Nat :=
  match findRatePercent label.data with
  | some n => n
  | none => 0

/-- The tax effect: `subTotal ? (subTotal * taxRate) / 100 : 0`. -/
def saleTaxOf (subTotal : ℚ) (label : String) : ℚ :=
  if subTotal = 0 then 0 else subTotal * (extractRatePercent label : ℚ) / 100

/-!
Footer totals (`renderFooter`, lines 577-590): subtotal and tax render as
`toFixed(2).replace('.', ',')`; the total renders
`(subTotal + saleTax).toFixed(2).replace('.', ',')` when both are defined,
`0` otherwise.
-/

/-- The displayed grand total string of `renderFooter`. -/
def displayedTotalStr (subTotal saleTax : Option ℚ) : String :=
  replaceDotComma
    (toFixed2String
      (match subTotal, saleTax with
       | some s, some t => s + t
       | _, _ => 0))

/-!
SEPA payment payload (`generateSepaQRData`, lines 93-114, and the QR
data-URL effect, lines 227-259; both build the identical string).
-/

/-- `const subtotal = subTotal || 0`: the state value with `undefined` and
`0` both collapsing to `0`. -/
def sepaSubtotal (subTotal : Option ℚ) : ℚ :=
  match subTotal with
  | none => 0
  | some s => if s = 0 then 0 else s

/-- `total = subtotal + subtotal * 0.19`: the payload's settlement amount,
computed from the fixed 19% rate. -/
def sepaTotal (subTotal : Option ℚ) : ℚ :=
  sepaSubtotal subTotal + sepaSubtotal subTotal * (19 / 100)

/-- The EPC payload string of `generateSepaQRData`: the template literal
`BCD\n002\n1\nSCT\n${bic}\n${recipient}\n${iban}\nEUR${total.toFixed(2)}\n\n\n${reference}`
with `recipient = invoice.name || invoice.companyName || ''` and
`reference = invoice.invoiceTitle || 'Rechnung'`. -/
def generateSepaQRData (subTotal : Option ℚ)
    (name companyName iban bic invoiceTitle : String) : String :=
  let total := sepaTotal subTotal
  let recipient := if name = "" then (if companyName = "" then "" else companyName) else name
  let reference := if invoiceTitle = "" then "Rechnung" else invoiceTitle
  "BCD\n002\n1\nSCT\n" ++ bic ++ "\n" ++ recipient ++ "\n" ++ iban ++ "\n" ++ "EUR" ++
    toFixed2String total ++ "\n\n\n" ++ reference

/-- The payload the component derives from an invoice snapshot, with the
subtotal state recomputed from `pageProductLines` as the subtotal effect does. -/
def payloadOfInvoice (inv : Invoice) : String :=
  generateSepaQRData (some (subTotalOf inv.pageProductLines))
    inv.name inv.companyName inv.iban inv.bic inv.invoiceTitle

/-- The spec's payload contract, stated from the claim's words: the 11 lines
`BCD, 002, 1, SCT, BIC, recipient, IBAN, currencySymbol+amount, blank, blank,
reference`, newline-joined, with the amount line prefixed by the
caller-supplied currency symbol. -/
def buildPayloadClaim (bic recipientName iban : String) (totalAmount : ℚ)
    (currencySymbol reference : String) : String :=
  "BCD\n002\n1\nSCT\n" ++ bic ++ "\n" ++ recipientName ++ "\n" ++ iban ++ "\n" ++
    currencySymbol ++ toFixed2String totalAmount ++ "\n\n\n" ++ reference

/-- Guard of the QR data-URL effect (line 229):
`if (invoice.iban && invoice.bic && subTotal)`. -/
def qrEffectCondition (iban bic : String) (subTotal : Option ℚ) : Bool :=
  (iban != "") && (bic != "") &&
    (match subTotal with
     | some s => s != 0
     | none => false)

/-- Guard of the interactive QR canvas (`renderFooter`, line 655):
`invoice.iban && invoice.bic`. -/
def footerQRCondition (iban bic : String) : Bool :=
  (iban != "") && (bic != "")

/-!
Export pagination (`renderPDFPages`, lines 685-712) and the edit/PDF item
selection (`getCurrentPageItems`, lines 61-68).
-/

/-- `const itemsPerPDFPage = 20`. -/
def itemsPerPDFPage : Nat := 20

/-- `Math.max(1, Math.ceil(invoice.productLines.length / itemsPerPDFPage))`. -/
def exportTotalPages (n : Nat) : Nat :=
  max 1 ((n + itemsPerPDFPage - 1) / itemsPerPDFPage)

/-- `invoice.productLines.slice(startIdx, Math.min(startIdx + 20, length))`. -/
def exportChunk (items : List ProductLine) (pageNum : Nat) : List ProductLine :=
  (items.drop (pageNum * itemsPerPDFPage)).take itemsPerPDFPage

/-- One rendered PDF page: whether the header renders, whether the
footer/totals render, and the item chunk of its table. -/
structure ExportPage where
  isFirstPage : Bool
  isLastPage : Bool
  items : List ProductLine
deriving DecidableEq, Repr

/-- The page list `renderPDFPages` builds in PDF mode.  Note it chunks
`invoice.productLines`, the flat legacy field. -/
def renderPDFPages (inv : Invoice) : List ExportPage :=
  let total := exportTotalPages inv.productLines.length
  (List.range total).map fun pageNum =>
    ⟨pageNum == 0, pageNum == total - 1, exportChunk inv.productLines pageNum⟩

/-- `getCurrentPageItems`: in PDF mode the flatten of all pages, otherwise
the selected page (missing page → empty list). -/
def getCurrentPageItems (pdfMode : Bool) (inv : Invoice) (currentPage : Nat) : List ProductLine :=
  if pdfMode then inv.pageProductLines.flatten
  else inv.pageProductLines.getD (currentPage - 1) []

/-!
Helper lemmas.
-/

/-- `subTotal || 0` is the identity on a defined subtotal. -/
theorem sepaSubtotal_some (s : ℚ) : sepaSubtotal (some s) = s := by
  by_cases h : s = 0 <;> simp [sepaSubtotal, h]

/-- Rounding fixes zero. -/
theorem round2_zero : round2 0 = 0 := by
  norm_num [round2, round2Int]

/-- The regular expression `/(\d+)%/` cannot match a label with no `%`. -/
theorem findRatePercent_none (l : List Char) (h : '%' ∉ l) : findRatePercent l = none := by
  induction l with
  | nil => rfl
  | cons c rest ih =>
    have hrest : '%' ∉ rest := fun hm => h (List.mem_cons_of_mem _ hm)
    unfold findRatePercent
    split
    · split
      · rename_i heq
        exfalso
        apply h
        have hmem : '%' ∈ (c :: rest).dropWhile Char.isDigit := by
          rw [heq]; exact List.mem_cons_self _ _
        exact (List.dropWhile_sublist _).subset hmem
      · exact ih hrest
    · exact ih hrest

/-- The subtotal is the full-precision sum of the amounts of the flattened
item sequence. -/
theorem subTotalOf_eq_flatten_sum (pages : List (List ProductLine)) :
    subTotalOf pages = (pages.flatten.map lineRawAmount).sum := by
  rw [subTotalOf, List.map_flatten, List.sum_flatten, List.map_map]
  rfl

/-!
Claim theorems.
-/

/-- C3: the payload's total amount equals subtotal + subtotal * 0.19 with the
fixed configured rate, and the payload is independent of the user-editable tax
label: two invoices identical except for their tax label produce the same
payload. -/
theorem sepa_amount_fixed_rate_ignores_tax_label :
    ∀ (inv : Invoice) (l1 l2 : String),
      payloadOfInvoice { inv with taxLabel := l1 } = payloadOfInvoice { inv with taxLabel := l2 } ∧
      sepaTotal (some (subTotalOf inv.pageProductLines)) =
        subTotalOf inv.pageProductLines + subTotalOf inv.pageProductLines * (19 / 100) := by
  intro inv l1 l2
  exact ⟨rfl, by rw [sepaTotal, sepaSubtotal_some]⟩

/-- C4: the tax-rate extractor returns the digit run of the first digit run
immediately followed by `%` (19 for "VAT 19%", 7 for "7% off, 19% VAT",
first match wins), returns 0 when the label holds no `%` at all, and the tax
amount is subtotal * rate / 100. -/
theorem extract_rate_percent_first_match :
    extractRatePercent "VAT 19%" = 19 ∧
    extractRatePercent "no tax" = 0 ∧
    extractRatePercent "7% off, 19% VAT" = 7 ∧
    (∀ (subTotal : ℚ) (label : String),
      saleTaxOf subTotal label = subTotal * (extractRatePercent label : ℚ) / 100) ∧
    (∀ label : String, '%' ∉ label.data → extractRatePercent label = 0) := by
  refine ⟨by decide, by decide, by decide, ?_, ?_⟩
  · intro s label
    by_cases h : s = 0 <;> simp [saleTaxOf, h]
  · intro label h
    rw [extractRatePercent, findRatePercent_none label.data h]

/-- C4 witness: the extractor at a concrete percent-free label. -/
theorem extract_rate_percent_first_match_witness : extractRatePercent "no rate here" = 0 :=
  extract_rate_percent_first_match.2.2.2.2 "no rate here" (by decide)

/-- The line amount as the claim words it: the product of the two parsed
numeric values rounded to 2 digits when both parse to non-zero truthy
numbers, and 0 otherwise. -/
def lineAmountClaim (quantity rate : String) : ℚ :=
  match jsParseFloat quantity, jsParseFloat rate with
  | some a, some b => if a.value ≠ 0 ∧ b.value ≠ 0 then round2 (a.value * b.value) else 0
  | _, _ => 0

/-- C5: the displayed line amount is the product of the parsed quantity and
rate rounded to 2 fractional digits at display time when both parse to
non-zero truthy numbers, and 0 otherwise; non-numeric input degrades to a
zero amount (the function is total, so no error is possible). -/
theorem calculate_amount_rounded_product :
    ∀ quantity rate : String,
      round2 (rawAmount quantity rate) = lineAmountClaim quantity rate ∧
      calculateAmount quantity rate = toFixed2String (rawAmount quantity rate) := by
  intro q r
  refine ⟨?_, rfl⟩
  unfold rawAmount lineAmountClaim
  rcases jsParseFloat q with _ | a
  · exact round2_zero
  · rcases jsParseFloat r with _ | b
    · exact round2_zero
    · by_cases h : a.value ≠ 0 ∧ b.value ≠ 0 <;> simp [h, round2_zero]

/-- C6: the subtotal is the sum of the unrounded line amounts over every item
of every page, and depends only on the flattened item sequence: any two page
groupings with the same flatten yield the same subtotal. -/
theorem subtotal_sum_grouping_independent :
    ∀ pages pages2 : List (List ProductLine),
      pages.flatten = pages2.flatten →
      subTotalOf pages = (pages.flatten.map lineRawAmount).sum ∧
      subTotalOf pages = subTotalOf pages2 := by
  intro p1 p2 h
  refine ⟨subTotalOf_eq_flatten_sum p1, ?_⟩
  rw [subTotalOf_eq_flatten_sum p1, subTotalOf_eq_flatten_sum p2, h]

/-- C6 witness: two concrete groupings of the same two items. -/
theorem subtotal_sum_grouping_independent_witness :
    subTotalOf [[⟨"a", "2", "3"⟩], [⟨"b", "4", "5"⟩]] = subTotalOf [[⟨"a", "2", "3"⟩, ⟨"b", "4", "5"⟩]] :=
  (subtotal_sum_grouping_independent [[⟨"a", "2", "3"⟩], [⟨"b", "4", "5"⟩]]
    [[⟨"a", "2", "3"⟩, ⟨"b", "4", "5"⟩]] rfl).2

/-- C10: editing a product-line field at an item index that does not exist on
the currently selected page, or removing a line when the selected page does
not exist, returns the invoice snapshot unchanged — neither operation creates
a line item, and both are total. -/
theorem out_of_range_edit_is_noop :
    ∀ (inv : Invoice) (currentPage index : Nat) (f : ProductLineField) (v : String),
      ((inv.pageProductLines[currentPage - 1]?.bind fun page => page[index]?) = none →
        handleProductLineChange inv currentPage index f v = inv) ∧
      (inv.pageProductLines[currentPage - 1]? = none →
        handleRemove inv currentPage index = inv) := by
  intro inv cp idx f v
  constructor
  · intro h
    rcases hp : inv.pageProductLines[cp - 1]? with _ | page
    · simp [handleProductLineChange, hp]
    · rw [hp] at h
      simp only [Option.some_bind] at h
      simp [handleProductLineChange, hp, h]
  · intro h
    simp [handleRemove, h]

/-- C10 witness: editing item 0 of an existing but empty page, and removing
from a page index past the end. -/
theorem out_of_range_edit_is_noop_witness :
    handleProductLineChange ⟨"", "", "", "", "", "", "", [], [[]]⟩ 1 0 .quantity "5" =
      ⟨"", "", "", "", "", "", "", [], [[]]⟩ ∧
    handleRemove ⟨"", "", "", "", "", "", "", [], [[]]⟩ 2 0 =
      ⟨"", "", "", "", "", "", "", [], [[]]⟩ :=
  ⟨(out_of_range_edit_is_noop ⟨"", "", "", "", "", "", "", [], [[]]⟩ 1 0 .quantity "5").1 (by decide),
   (out_of_range_edit_is_noop ⟨"", "", "", "", "", "", "", [], [[]]⟩ 2 0 .quantity "5").2 (by decide)⟩

/-- The preserve condition as the claim words it: last character is the
separator, or a terminal zero standing right after the separator. -/
def claimPreserve (v : String) : Bool :=
  match v.data.reverse with
  | '.' :: _ => true
  | '0' :: '.' :: _ => true
  | _ => false

/-- The claim's normalization: preserve the raw text under `claimPreserve`,
otherwise parse and display with comma. -/
def claimNormalize (v : String) : String :=
  if claimPreserve v then v else displayOfParse v

/-- C7 counterexample: on "12.50" the terminal zero follows a '5', not the
separator, so the claim's rule parses and reformats it to "12,5"; the code's
guard (`ends in '0' and contains '.' anywhere`) preserves "12.50" verbatim. -/
theorem preserve_guard_counterexample :
    normalizeNumeric "12.50" = "12.50" ∧ claimNormalize "12.50" = "12,5" ∧
    normalizeNumeric "12.50" ≠ claimNormalize "12.50" :=
  ⟨by decide, by decide, by decide⟩

/-- C7 (amended): the raw text is preserved unmodified whenever its last
character is '.', or its last character is '0' and the text contains a '.'
anywhere; otherwise it is parsed as a floating value (0 on failure) and
displayed with the period replaced by a comma.  A preserved "12." still
contributes 12 to the subtotal. -/
theorem numeric_field_normalization :
    ∀ v : String,
      (preserveRaw v = true → normalizeNumeric v = v) ∧
      (preserveRaw v = false → normalizeNumeric v = displayOfParse v) ∧
      normalizeNumeric "12." = "12." ∧
      subTotalOf [[⟨"d", "12.", "1"⟩]] = 12 := by
  intro v
  refine ⟨fun h => by simp [normalizeNumeric, h], fun h => by simp [normalizeNumeric, h],
    by decide, ?_⟩
  have hq : jsParseFloat "12." = some ⟨false, 12, 0⟩ := by decide
  have hr : jsParseFloat "1" = some ⟨false, 1, 0⟩ := by decide
  simp [subTotalOf, lineRawAmount, rawAmount, hq, hr, JSNum.value]

/-- C7 witness: the guard at the mid-edit text "12.0". -/
theorem numeric_field_normalization_witness : normalizeNumeric "12.0" = "12.0" :=
  (numeric_field_normalization "12.0").1 (by decide)

/-- C8 counterexample: with IBAN and BIC both non-empty but a zero subtotal,
the QR data-URL effect's guard is false, so no payload is generated although
the claim requires one. -/
theorem qr_guard_counterexample :
    qrEffectCondition "DE12345678901234567890" "ABCDDEFG" (some 0) = false ∧
    "DE12345678901234567890" ≠ "" ∧ "ABCDDEFG" ≠ "" := by
  refine ⟨?_, by decide, by decide⟩
  unfold qrEffectCondition
  simp

/-- C8 (amended): the interactive QR canvas renders exactly when IBAN and BIC
are non-empty, but the PDF QR data-URL effect additionally requires the
subtotal state to be defined and non-zero. -/
theorem qr_guards_characterization :
    ∀ (iban bic : String) (subTotal : Option ℚ),
      (qrEffectCondition iban bic subTotal = true ↔
        iban ≠ "" ∧ bic ≠ "" ∧ ∃ s : ℚ, subTotal = some s ∧ s ≠ 0) ∧
      (footerQRCondition iban bic = true ↔ iban ≠ "" ∧ bic ≠ "") := by
  intro iban bic sub
  constructor
  · rcases sub with _ | s
    · simp [qrEffectCondition]
    · simp [qrEffectCondition, and_assoc]
  · simp [footerQRCondition]

/-- Joining the first `k` export chunks yields the first `k * 20` items. -/
theorem export_chunks_flatten_take (items : List ProductLine) (k : Nat) :
    ((List.range k).map (exportChunk items)).flatten = items.take (k * itemsPerPDFPage) := by
  induction k with
  | zero => simp
  | succ k ih =>
    rw [List.range_succ, List.map_append, List.flatten_append, ih]
    simp only [List.map_cons, List.map_nil, List.flatten_cons, List.flatten_nil,
      List.append_nil, exportChunk]
    rw [Nat.succ_mul, List.take_add]

/-- The configured page count always covers the whole item list. -/
theorem exportTotalPages_mul_ge (n : Nat) : n ≤ exportTotalPages n * itemsPerPDFPage := by
  simp only [exportTotalPages, itemsPerPDFPage, Nat.max_def]
  split <;> omega

/-- Joining every export chunk reproduces the chunked list exactly. -/
theorem export_chunks_flatten (items : List ProductLine) :
    ((List.range (exportTotalPages items.length)).map (exportChunk items)).flatten = items := by
  rw [export_chunks_flatten_take]
  exact List.take_of_length_le (exportTotalPages_mul_ge items.length)

/-- The concrete invoice state after one item was added through the
page-aware editor: `pageProductLines` holds it, the legacy `productLines`
stays empty. -/
def invC2 : Invoice :=
  { name := "Jane Doe", companyName := "", invoiceTitle := "INV-1", taxLabel := "VAT 19%",
    currency := "EUR", iban := "DE12345678901234567890", bic := "ABCDDEFG",
    productLines := [], pageProductLines := [[⟨"Beratung", "2", "3"⟩]] }

/-- C2: at `invC2` the export renders one page whose chunk is empty while the
flatten of all pages holds the item, so concatenating the export chunks does
not reproduce the page-then-item order — `renderPDFPages` chunks the legacy
`invoice.productLines` field, not the flattened `pageProductLines`.  The
chunking itself does satisfy the claimed shape: on the list it chunks, the
flatten of all chunks is the list, the page count is `max 1 (ceil (N / 20))`,
and the header/footer flags mark exactly the first and last page. -/
theorem export_pages_use_legacy_field :
    renderPDFPages invC2 = [⟨true, true, []⟩] ∧
    getCurrentPageItems true invC2 1 = [⟨"Beratung", "2", "3"⟩] ∧
    ((renderPDFPages invC2).map ExportPage.items).flatten ≠ getCurrentPageItems true invC2 1 ∧
    (∀ items : List ProductLine,
      ((List.range (exportTotalPages items.length)).map (exportChunk items)).flatten = items ∧
      exportTotalPages items.length = max 1 ((items.length + 19) / 20)) ∧
    (∀ (inv : Invoice) (i : Nat) (h : i < (renderPDFPages inv).length),
      (renderPDFPages inv)[i].isFirstPage = (i == 0) ∧
      (renderPDFPages inv)[i].isLastPage = (i == (renderPDFPages inv).length - 1)) := by
  refine ⟨by decide, by decide, by decide, fun items => ⟨export_chunks_flatten items, rfl⟩, ?_⟩
  intro inv i h
  simp [renderPDFPages]

/-- Newline split of a character list (an empty text is one empty line, each
'\n' opens a new line), used to state the payload's 11-line structure. -/
def splitOnNewline : List Char → List (List Char)
  | [] => [[]]
  | c :: rest =>
    if c = '\n' then [] :: splitOnNewline rest
    else
      match splitOnNewline rest with
      | [] => [[c]]
      | h :: t => (c :: h) :: t

/-- Evaluation of the 2-decimal formatter at the round-trip example's total. -/
theorem toFixed2String_at_119 : toFixed2String 119 = "119.00" := by
  have h : round2Int 119 = 11900 := by
    rw [round2Int, if_neg (by norm_num : ¬ (119 : ℚ) < 0)]
    norm_num
  simp only [toFixed2String, h]
  rw [if_neg (by norm_num : ¬ (119 : ℚ) < 0)]
  decide

/-- C1 (amended): for every input the payload is the claimed 11-line
structure, except that the amount line is prefixed by the fixed literal "EUR"
rather than a caller-supplied currency symbol; the round-trip example holds
with EUR.  The amount is `toFixed(2)` of subtotal * 1.19, the two blank lines
are always present. -/
theorem sepa_payload_structure :
    (∀ (sub : ℚ) (name companyName iban bic invoiceTitle : String),
      generateSepaQRData (some sub) name companyName iban bic invoiceTitle =
        buildPayloadClaim bic (if name = "" then companyName else name) iban
          (sub + sub * (19 / 100)) "EUR"
          (if invoiceTitle = "" then "Rechnung" else invoiceTitle)) ∧
    generateSepaQRData (some 100) "Jane Doe" "" "DE12345678901234567890" "ABCDDEFG" "INV-1" =
      "BCD\n002\n1\nSCT\nABCDDEFG\nJane Doe\nDE12345678901234567890\nEUR119.00\n\n\nINV-1" ∧
    splitOnNewline
        "BCD\n002\n1\nSCT\nABCDDEFG\nJane Doe\nDE12345678901234567890\nEUR119.00\n\n\nINV-1".data =
      ["BCD".data, "002".data, "1".data, "SCT".data, "ABCDDEFG".data, "Jane Doe".data,
        "DE12345678901234567890".data, "EUR119.00".data, [], [], "INV-1".data] := by
  have htot : ∀ sub : ℚ, sepaTotal (some sub) = sub + sub * (19 / 100) := fun sub => by
    rw [sepaTotal, sepaSubtotal_some]
  refine ⟨?_, ?_, by decide⟩
  · intro sub name cn iban bic title
    simp only [generateSepaQRData, buildPayloadClaim, htot]
    by_cases hcn : cn = "" <;> by_cases hn : name = "" <;> simp [hn, hcn]
  · have h100 : sepaTotal (some 100) = 119 := by rw [htot]; norm_num
    simp only [generateSepaQRData, h100, toFixed2String_at_119]
    decide

/-- Concrete invoice whose currency field is "$": one 10 × 10 line item,
giving subtotal 100 and payload amount 119.00. -/
def invC1 : Invoice :=
  { name := "Jane Doe", companyName := "", invoiceTitle := "INV-1", taxLabel := "VAT 19%",
    currency := "$", iban := "DE12345678901234567890", bic := "ABCDDEFG",
    productLines := [], pageProductLines := [[⟨"Arbeit", "10", "10"⟩]] }

/-- Evaluation of a whole-number line: 10 × 10 amounts to 100. -/
theorem rawAmount_ten_ten : rawAmount "10" "10" = 100 := by
  have hp : jsParseFloat "10" = some ⟨false, 10, 0⟩ := by decide
  have hv : JSNum.value ⟨false, 10, 0⟩ = 10 := by
    simp only [JSNum.value]
    norm_num
  simp only [rawAmount, hp, hv]
  norm_num

/-- C1 counterexample: the invoice carries the currency symbol "$", yet the
generated payload is not the claimed string built with that symbol — the
amount line is hard-coded "EUR". -/
theorem sepa_payload_currency_counterexample :
    payloadOfInvoice invC1 ≠
      buildPayloadClaim invC1.bic invC1.name invC1.iban
        (subTotalOf invC1.pageProductLines + subTotalOf invC1.pageProductLines * (19 / 100))
        invC1.currency invC1.invoiceTitle := by
  have hsub : subTotalOf invC1.pageProductLines = 100 := by
    show subTotalOf [[⟨"Arbeit", "10", "10"⟩]] = 100
    simp only [subTotalOf, List.map_cons, List.map_nil, List.sum_cons, List.sum_nil,
      lineRawAmount, rawAmount_ten_ten]
    norm_num
  have h100 : sepaTotal (some 100) = 119 := by
    rw [sepaTotal, sepaSubtotal_some]; norm_num
  have h119 : (100 : ℚ) + 100 * (19 / 100) = 119 := by norm_num
  simp only [payloadOfInvoice, hsub, generateSepaQRData, buildPayloadClaim, h100, h119,
    toFixed2String_at_119, invC1]
  decide

/-- Rounding is the identity on exact multiples of 1/100. -/
theorem round2_int_div_hundred (m : ℤ) : round2 ((m : ℚ) / 100) = (m : ℚ) / 100 := by
  have half : ⌊(1 / 2 : ℚ)⌋ = 0 := by norm_num
  unfold round2 round2Int
  by_cases h : ((m : ℚ) / 100) < 0
  · rw [if_pos h]
    have e1 : -((m : ℚ) / 100) * 100 + 1 / 2 = ((-m : ℤ) : ℚ) + 1 / 2 := by
      push_cast
      ring
    rw [e1, Int.floor_int_add, half]
    push_cast
    ring
  · rw [if_neg h]
    have e1 : ((m : ℚ) / 100) * 100 + 1 / 2 = ((m : ℤ) : ℚ) + 1 / 2 := by
      ring
    rw [e1, Int.floor_int_add, half]
    push_cast
    ring

/-- Concrete invoice: one line of 1 × 0.0040 (a stored string the editor
preserves verbatim), tax label "100%". -/
def invC9 : Invoice :=
  { name := "", companyName := "", invoiceTitle := "", taxLabel := "100%", currency := "EUR",
    iban := "DE12345678901234567890", bic := "ABCDDEFG", productLines := [],
    pageProductLines := [[⟨"item", "1", "0.0040"⟩]] }

/-- Evaluation of the 1 × 0.0040 line: amount 1/250 = 0.004. -/
theorem rawAmount_one_small : rawAmount "1" "0.0040" = 1 / 250 := by
  have h1 : jsParseFloat "1" = some ⟨false, 1, 0⟩ := by decide
  have h4 : jsParseFloat "0.0040" = some ⟨false, 40, -4⟩ := by decide
  have hv1 : JSNum.value ⟨false, 1, 0⟩ = 1 := by
    simp only [JSNum.value]
    norm_num
  have hv4 : JSNum.value ⟨false, 40, -4⟩ = 1 / 250 := by
    simp only [JSNum.value]
    have h44 : Int.toNat 4 = 4 := rfl
    norm_num [h44]
  simp only [rawAmount, h1, h4, hv1, hv4]
  norm_num

/-- C9 counterexample: at `invC9` the subtotal and tax are both 0.004; each
displays as 0.00 but the total displays as 0.01, so the displayed total is
not the sum of the displayed subtotal and displayed tax under the shared
2-digit rounding. -/
theorem displayed_total_not_sum_of_displays :
    round2 (subTotalOf invC9.pageProductLines +
        saleTaxOf (subTotalOf invC9.pageProductLines) invC9.taxLabel) ≠
      round2 (subTotalOf invC9.pageProductLines) +
        round2 (saleTaxOf (subTotalOf invC9.pageProductLines) invC9.taxLabel) := by
  have hsub : subTotalOf invC9.pageProductLines = 1 / 250 := by
    show subTotalOf [[⟨"item", "1", "0.0040"⟩]] = 1 / 250
    simp only [subTotalOf, List.map_cons, List.map_nil, List.sum_cons, List.sum_nil,
      lineRawAmount, rawAmount_one_small]
    norm_num
  have hrate : extractRatePercent "100%" = 100 := by decide
  have htax : saleTaxOf (1 / 250 : ℚ) "100%" = 1 / 250 := by
    rw [saleTaxOf, if_neg (by norm_num), hrate]
    norm_num
  have hlabel : invC9.taxLabel = "100%" := rfl
  rw [hlabel, hsub, htax]
  have hA : round2 (1 / 250 + 1 / 250 : ℚ) = 1 / 100 := by
    rw [round2, round2Int, if_neg (by norm_num)]
    norm_num
  have hB : round2 (1 / 250 : ℚ) = 0 := by
    rw [round2, round2Int, if_neg (by norm_num)]
    norm_num
  rw [hA, hB]
  norm_num

/-- C9 (amended): the rendered total is `toFixed(2)` of the full-precision
sum subtotal + tax (a single rounding of the exact sum, then comma
formatting); it coincides with the sum of the individually rounded subtotal
and tax whenever both are exact multiples of 0.01, though not in general. -/
theorem displayed_total_full_precision :
    (∀ s t : ℚ, displayedTotalStr (some s) (some t) = replaceDotComma (toFixed2String (s + t))) ∧
    (∀ s t : ℚ, (∃ m : ℤ, s = (m : ℚ) / 100) → (∃ k : ℤ, t = (k : ℚ) / 100) →
      round2 (s + t) = round2 s + round2 t) := by
  constructor
  · intro s t
    rfl
  · rintro s t ⟨m, rfl⟩ ⟨k, rfl⟩
    have hsum : (m : ℚ) / 100 + (k : ℚ) / 100 = ((m + k : ℤ) : ℚ) / 100 := by
      push_cast
      ring
    rw [hsum, round2_int_div_hundred, round2_int_div_hundred, round2_int_div_hundred]
    push_cast
    ring

/-- C9 witness: rounding additivity at the 2-decimal values 0.03 and 0.04. -/
theorem displayed_total_full_precision_witness :
    round2 ((3 : ℚ) / 100 + 4 / 100) = round2 ((3 : ℚ) / 100) + round2 ((4 : ℚ) / 100) :=
  displayed_total_full_precision.2 ((3 : ℚ) / 100) ((4 : ℚ) / 100)
    ⟨3, by norm_num⟩ ⟨4, by norm_num⟩
